import Mathlib

/-!
Shallow embedding of the resume-screening application: the canonical data
model (`ScreeningResult`), the provider service (`screenResume` with its
retry wrapper `retryOperation`), the batch orchestration (`handleScreening`),
the shortlist operations (`handleShortlist`, `handleRemoveFromShortlist`)
and the CSV export (`handleExportCSV`).  Asynchrony is flattened: external
effects (API keys in the environment, DOCX text extraction, base64 decoding,
the two provider network calls, JSON decoding, the random number of the demo
path) are supplied through an explicit `Env` record, and a fallible step
returns `Except String` carrying the thrown error message.
-/

/-- One entry of `skillsAnalysis` (interface `SkillAnalysis` in types.ts).
JSON numbers are modelled as `Int`. -/
structure SkillAnalysis where
  skill : String
  score : Int
  reasoning : String
  evidence : String
deriving DecidableEq

/-- The canonical per-candidate output (interface `ScreeningResult` in
types.ts).  At runtime the TypeScript union type of `recommendation` is
erased, so the field is modelled as a plain `String`; `validRecommendation`
below captures the declared closed enumeration. -/
structure ScreeningResult where
  candidateName : String
  candidateLocation : String
  candidateExperience : String
  currentRole : String
  email : Option String
  phone : Option String
  resumeText : String
  overallMatchScore : Int
  candidateSummary : String
  skillsAnalysis : List SkillAnalysis
  strengths : List String
  weaknesses : List String
  recommendation : String
  suitableRoles : List String
  technicalSkills : List String
  functionalSkills : List String
deriving DecidableEq

/-- The closed 4-value enumeration declared for `recommendation` in the
TypeScript interface and in the Gemini response schema `enum`. -/
def validRecommendation (s : String) : Bool :=
  s = "Strong Match" || s = "Potential Match" || s = "Weak Match" || s = "Not a Match"

/-- Provenance tag of a `FileInput` (`source?: 'local' | 'sharepoint'`). -/
inductive FileSource where
  | localUpload
  | sharepoint
deriving DecidableEq

/-- Interface `FileInput` in types.ts.  The `File` object is kept only as its
name (`file?.name`); `base64` is the file content; `none` models `null` /
`undefined`. -/
structure FileInput where
  fileName : Option String
  base64 : Option String
  mimeType : String
  source : Option FileSource
deriving DecidableEq

/-- Enum `JobDescriptionMode` in types.ts. -/
inductive JobDescriptionMode where
  | TEXT
  | FILE
deriving DecidableEq

/-- Type `AiProvider = 'gemini' | 'openai'` in types.ts. -/
inductive AiProvider where
  | gemini
  | openai
deriving DecidableEq

/-- JavaScript truthiness of a `string | null | undefined` value: falsy when
absent or the empty string. -/
def isFalsyOpt : Option String → Bool
  | none => true
  | some s => s = ""

/-- Execution trace of `retryOperation`: the final outcome, how many times
the wrapped operation was invoked, and the backoff delays slept (in order,
one before each retry). -/
structure RetryTrace (E A : Type) where
  result : Except E A
  attempts : Nat
  delays : List Nat
deriving Repr

/-- `retryOperation` in geminiService.ts: try the operation; on failure, if
`retries > 0`, sleep `delay`, then recurse with `retries - 1` and `delay * 2`;
otherwise rethrow the error of the last attempt.  The operation is indexed by
the attempt number so that attempt-dependent behaviour is representable. -/
def retryOperation {E A : Type} (op : Nat → Except E A) : Nat → Nat → Nat → RetryTrace E A
  | 0, _, k =>
    match op k with
    | .ok v => ⟨.ok v, 1, []⟩
    | .error e => ⟨.error e, 1, []⟩
  | r + 1, delay, k =>
    match op k with
    | .ok v => ⟨.ok v, 1, []⟩
    | .error _ =>
      let t := retryOperation op r (delay * 2) (k + 1)
      ⟨t.result, t.attempts + 1, delay :: t.delays⟩

/-- `fileName.replace(/\.(pdf|docx)$/, '')` in `generateMockResult`. -/
def stripResumeExt (s : String) : String :=
  if s.endsWith ".pdf" then s.dropRight 4
  else if s.endsWith ".docx" then s.dropRight 5
  else s

/-- `.replace(/_/g, ' ')` in `generateMockResult`. -/
def underscoresToSpaces (s : String) : String :=
  s.map fun c => if c = '_' then ' ' else c

/-- `generateMockResult` in geminiService.ts: the synthesized fixed-shape
result of the SharePoint demo path.  `rand` stands for
`Math.floor(Math.random() * 40)` (a value in `0..39`). -/
def generateMockResult (rand : Nat) (fileName : String) : ScreeningResult :=
  ⟨underscoresToSpaces (stripResumeExt fileName),
   "SharePoint Import (Demo)",
   "5+ years",
   "Software Engineer",
   some "demo.candidate@example.com",
   some "555-0123",
   "This is a simulated resume text for demonstration purposes as the file was imported from a mock SharePoint source.",
   (60 : Int) + rand,
   "This is a generated summary for the SharePoint demo. In a production environment, the file content would be fetched via Microsoft Graph API and analyzed by the AI.",
   [⟨"React", 85, "Demonstrated strong proficiency in simulated context.", "Built complex UIs"⟩,
    ⟨"TypeScript", 75, "Good understanding implied by role.", "Used in recent projects"⟩,
    ⟨"Cloud Platforms", 60, "Mentioned but lacks specific details in this mock.", "Deployed apps"⟩],
   ["Quick Learner", "Team Player", "Technical adaptability"],
   ["Mock data lacks depth"],
   "Potential Match",
   ["Frontend Developer", "Full Stack Engineer"],
   ["JavaScript", "React", "Node.js", "Git"],
   ["Communication", "Agile"]⟩

/-- The text of `getCommonPrompt` before the interpolated `jdContext`. -/
def commonPromptHead : String :=
  "\n    You are an expert HR Technical Recruiter and Resume Screener known for being extremely strict and precise.\n    \n    "

/-- The text of `getCommonPrompt` after the interpolated `jdContext`. -/
def commonPromptTail : String :=
  "\n\n    Your goal is to screen the attached resume against the Job Description (JD) with high precision, verifying claims against evidence.\n\n    Steps:\n    1. **Analyze the JD**: Identify the critical \"Must-Have\" technical skills, required years of experience, and essential soft skills. Distinguish these from \"Nice-to-Have\" skills.\n    2. **Analyze the Resume**: Extract candidate details and skills. \n       - NOTE: If the resume content appears to be invalid, random text, or not a resume at all, set 'recommendation' to \"Not a Match\", 'overallMatchScore' to 0, and 'candidateName' to \"Unknown/Invalid File\".\n    3. **Strict Comparison (Evidence-Based)**: \n       - **Context Matters**: Do not just keyword match. A candidate listing \"Python\" in a skills section is different from one who used \"Python\" to build a backend API in their last job.\n       - **Penalty for Missing Must-Haves**: If a core requirement (e.g., \"5+ years of Java\") is missing or the candidate only has 1 year, the score for that skill must be low (<40), and the overall match score must be significantly impacted.\n       - **Keyword Stuffing**: Assign low scores (30-50) if a skill is only found in a \"Skills\" list without context in the \"Experience\" section.\n       - **Synonyms**: 'AWS' matches 'Amazon Web Services'; 'React' matches 'React.js'.\n    4. **Recommendation Logic**:\n       - **Strong Match**: Candidate meets ALL \"Must-Have\" requirements with strong evidence in recent roles.\n       - **Potential Match**: Meets most \"Must-Haves\" but might lack specific domain knowledge or full years of experience.\n       - **Weak Match**: Missing one or more critical \"Must-Have\" skills, or experience is significantly lower than required.\n       - **Not a Match**: Fundamental mismatch (e.g., wrong tech stack, junior applying for architect role, missing multiple core skills).\n\n    Task output:\n    1. Extract candidate's Name, Location, Experience, Role, Email.\n    2. Extract Phone: **Strictly remove any international country codes** (e.g., +1, +91, 0044). Return only the local 10-digit (or standard local length) number. Format as (XXX) XXX-XXXX if it is a US number, or standard local format otherwise.\n    3. Extract FULL resume text.\n    4. 'skillsAnalysis': List the *JD Requirements* you identified in Step 1.\n       - Score strictly based on evidence found in the 'Experience' or 'Projects' sections, not just the 'Skills' list.\n       - In 'evidence', quote the specific text. If no evidence exists in experience/projects, state \"Listed in skills only\" or \"No evidence found\".\n    5. 'overallMatchScore': A weighted average. Weight \"Must-Have\" skills double.\n    6. 'suitableRoles': 3-5 roles this candidate fits.\n    7. 'technicalSkills' & 'functionalSkills': Comprehensive lists.\n\n    Be extremely critical. It is better to reject a weak candidate than to falsely recommend them.\n"

/-- `getCommonPrompt` in geminiService.ts (shared instruction template). -/
def getCommonPrompt (jdContext : String) : String :=
  commonPromptHead ++ jdContext ++ commonPromptTail

/-- The `jsonStructurePrompt` template appended for the OpenAI provider
(braces of the JSON skeleton written as escapes). -/
def jsonStructurePrompt : String :=
  "\n        IMPORTANT: Your response MUST be valid JSON adhering exactly to this structure:\n        \x7b\n          \"candidateName\": \"string\",\n          \"candidateLocation\": \"string\",\n          \"candidateExperience\": \"string\",\n          \"currentRole\": \"string\",\n          \"email\": \"string\",\n          \"phone\": \"string\",\n          \"resumeText\": \"string\",\n          \"overallMatchScore\": 0,\n          \"candidateSummary\": \"string\",\n          \"skillsAnalysis\": [\x7b \"skill\": \"string\", \"score\": 0, \"reasoning\": \"string\", \"evidence\": \"string\" \x7d],\n          \"strengths\": [\"string\"],\n          \"weaknesses\": [\"string\"],\n          \"recommendation\": \"Strong Match\" | \"Potential Match\" | \"Weak Match\" | \"Not a Match\",\n          \"suitableRoles\": [\"string\"],\n          \"technicalSkills\": [\"string\"],\n          \"functionalSkills\": [\"string\"]\n        \x7d\n        "

/-- The DOCX media type string used throughout geminiService.ts. -/
def docxMime : String :=
  "application/vnd.openxmlformats-officedocument.wordprocessingml.document"

/-- One element of the Gemini `contents.parts` array: either a text block or
an inline-data blob (`data` kept as the possibly-null base64 string the code
passes). -/
inductive ContentPart where
  | text (t : String)
  | inlineData (mimeType : String) (data : Option String)
deriving DecidableEq

/-- The external collaborators of `screenResume`, flattened into one record:
the two environment credentials, the DOCX extraction collaborator
(`extractTextFromDocx` returns `""` on failure, so it is total here), base64
decoding (`window.atob`), the two provider round trips (returning the
response text, `none` for an absent text, `.error` for a rejected call),
`JSON.parse` followed by the unchecked `as ScreeningResult` cast, and the
random draw of the demo path. -/
structure Env where
  apiKeyGemini : Option String
  apiKeyOpenai : Option String
  extractDocx : String → String
  atob : String → String
  geminiGenerate : String → List ContentPart → Except String (Option String)
  openaiComplete : String → String → String → Except String (Option String)
  decodeJson : String → Except String ScreeningResult
  mockRandom : Nat

/-- JavaScript whitespace for `String.prototype.trim` (the characters that
matter here). -/
def isJsSpace (c : Char) : Bool :=
  c = ' ' || c = '\t' || c = '\n' || c = '\r'

/-- `String.prototype.trim()`, structurally (drop whitespace from both
ends). -/
def jsTrim (s : String) : String :=
  String.mk (((s.data.dropWhile isJsSpace).reverse.dropWhile isJsSpace).reverse)

/-- The `else if (jobDescriptionText.trim())` branch of the JD-context
preparation in `screenResume`. -/
def jdTextBranch (jobDescriptionText : String) : Except String String :=
  if jsTrim jobDescriptionText = "" then .error "No Job Description provided."
  else .ok ("Job Description Context:\n" ++ jobDescriptionText)

/-- The JD-context preparation step of `screenResume` (common to both
providers): a DOCX job description is extracted locally; for Gemini any
other file yields the inline-attachment marker; for OpenAI a PDF yields the
degraded-mode placeholder and any other file is base64-decoded; without a
usable file the raw JD text is used, and an absent JD throws. -/
def buildJdContext (env : Env) (provider : AiProvider) (jobDescriptionText : String)
    (jdFile : Option FileInput) : Except String String :=
  match jdFile with
  | some f =>
    if isFalsyOpt f.base64 then jdTextBranch jobDescriptionText
    else if f.mimeType = docxMime then
      .ok ("Job Description Context:\n" ++ env.extractDocx (f.base64.getD ""))
    else if provider = AiProvider.gemini then
      .ok ("Job Description Context:\n" ++ "(See attached Job Description document)")
    else if f.mimeType = "application/pdf" then
      .ok ("Job Description Context:\n" ++ "(Attached JD is a PDF - Please copy text for better results)")
    else
      .ok ("Job Description Context:\n" ++ env.atob (f.base64.getD ""))
  | none => jdTextBranch jobDescriptionText

/-- The JD part pushed for Gemini when the JD file is a PDF (inline data,
raw bytes). -/
def geminiJdParts (jdFile : Option FileInput) : List ContentPart :=
  match jdFile with
  | some f => if f.mimeType = "application/pdf" then [ContentPart.inlineData f.mimeType f.base64] else []
  | none => []

/-- The Gemini `parts` construction inside `screenResume`: a DOCX resume is
extracted locally (failing with `Empty DOCX` when extraction yields nothing);
any other media type is pushed as raw inline data; then the optional PDF JD
part and the shared instruction text. -/
def buildGeminiParts (env : Env) (resume : FileInput) (jdFile : Option FileInput)
    (jdContext : String) : Except String (List ContentPart) :=
  if resume.mimeType = docxMime then
    let extractedText := env.extractDocx (resume.base64.getD "")
    if jsTrim extractedText = "" then .error "Empty DOCX"
    else .ok ([ContentPart.text ("RESUME TEXT CONTENT:\n" ++ extractedText)]
      ++ geminiJdParts jdFile ++ [ContentPart.text (getCommonPrompt jdContext)])
  else
    .ok ([ContentPart.inlineData resume.mimeType resume.base64]
      ++ geminiJdParts jdFile ++ [ContentPart.text (getCommonPrompt jdContext)])

/-- The Gemini branch of the operation wrapped by `retryOperation` in
`screenResume`: credential check, parts construction, one network call,
empty-response check, then `JSON.parse(text) as ScreeningResult`. -/
def geminiAttempt (env : Env) (resume : FileInput) (jdFile : Option FileInput)
    (jdContext : String) (modelName : String) : Except String ScreeningResult :=
  if isFalsyOpt env.apiKeyGemini then
    .error "Gemini API Key missing in environment variables."
  else
    match buildGeminiParts env resume jdFile jdContext with
    | .error e => .error e
    | .ok parts =>
      match env.geminiGenerate modelName parts with
      | .error e => .error e
      | .ok t =>
        if isFalsyOpt t then .error "Empty response from Gemini"
        else env.decodeJson (t.getD "")

/-- The OpenAI branch of the operation wrapped by `retryOperation` in
`screenResume`: credential check, PDF resumes rejected, DOCX extracted and
anything else base64-decoded as text, empty-text check, one network call,
empty-content check, then `JSON.parse(content) as ScreeningResult`. -/
def openaiAttempt (env : Env) (resume : FileInput) (jdContext : String)
    (modelName : String) : Except String ScreeningResult :=
  if isFalsyOpt env.apiKeyOpenai then
    .error "OpenAI API Key missing. Please configure OPENAI_API_KEY in backend/environment variables."
  else if resume.mimeType = "application/pdf" then
    .error "OpenAI mode currently supports DOCX and Text files only. Please use Gemini for PDF resumes."
  else
    let resumeTextContent :=
      if resume.mimeType = docxMime then env.extractDocx (resume.base64.getD "")
      else env.atob (resume.base64.getD "")
    if jsTrim resumeTextContent = "" then
      .error "Could not extract text from resume for OpenAI processing."
    else
      let systemMessage := getCommonPrompt jdContext ++ "\n\n" ++ jsonStructurePrompt
      let userMessage := "Here is the resume content:\n\n" ++ resumeTextContent
      match env.openaiComplete modelName systemMessage userMessage with
      | .error e => .error e
      | .ok c =>
        if isFalsyOpt c then .error "No response from OpenAI"
        else env.decodeJson (c.getD "")

/-- `screenResume` in geminiService.ts: demo-mode short circuit, missing
resume content check, JD context preparation, then the provider round trip
wrapped in `retryOperation` with the default 2 retries and 1000 ms base
delay. -/
def screenResume (env : Env) (resume : FileInput) (jobDescriptionText : String)
    (jobDescriptionFile : Option FileInput) (modelName : String)
    (provider : AiProvider) : Except String ScreeningResult :=
  if resume.source = some FileSource.sharepoint ∧ resume.base64 = some "MOCK_BASE64_CONTENT_FOR_DEMO_ONLY" then
    .ok (generateMockResult env.mockRandom (resume.fileName.getD "Candidate"))
  else if isFalsyOpt resume.base64 then
    .error "Resume file content is missing."
  else
    match buildJdContext env provider jobDescriptionText jobDescriptionFile with
    | .error e => .error e
    | .ok jdContext =>
      (retryOperation (fun _ =>
        match provider with
        | .gemini => geminiAttempt env resume jobDescriptionFile jdContext modelName
        | .openai => openaiAttempt env resume jdContext modelName) 2 1000 0).result

/-- Output of the per-item loop of `handleScreening`: the collected results
(`newResults`) and the failure manifest (`failedFiles`). -/
structure LoopOut where
  results : List ScreeningResult
  failed : List String
deriving DecidableEq

/-- The `for` loop of `handleScreening` in App.tsx: each resume is screened;
a success is appended to the result list, a failure appends
`fileName (message)` to the manifest and the loop continues with the next
item.  `i` is the loop index (used for the `Resume ${i+1}` fallback name). -/
def screeningLoop (screen : FileInput → Except String ScreeningResult) :
    List FileInput → Nat → LoopOut
  | [], _ => ⟨[], []⟩
  | r :: rest, i =>
    let fileName := r.fileName.getD ("Resume " ++ toString (i + 1))
    match screen r with
    | .ok analysis =>
      let o := screeningLoop screen rest (i + 1)
      ⟨analysis :: o.results, o.failed⟩
    | .error m =>
      let o := screeningLoop screen rest (i + 1)
      ⟨o.results, (fileName ++ " (" ++ m ++ ")") :: o.failed⟩

/-- Outcome of one `handleScreening` run: a pre-flight input error (an early
`setError` return before the loop), a batch-level failure thrown after the
loop, or the partitioned result. -/
inductive BatchOutcome where
  | inputError (msg : String)
  | failure (msg : String)
  | success (results : List ScreeningResult) (failed : List String)
deriving DecidableEq

/-- `handleScreening` in App.tsx: pre-flight checks (at least one resume, a
JD text in TEXT mode, a JD file in FILE mode), the per-item loop, then the
batch-level post-conditions: all items failed throws one error carrying the
joined manifest, no results at all throws, and otherwise the results are
published together with the manifest.  The provider call chain is abstracted
as `screen` (`screenResume` applied to the fixed JD/model/provider of the
run); `jdFilePresent` models `jdFile.file !== null`. -/
def handleScreening (screen : FileInput → Except String ScreeningResult)
    (resumes : List FileInput) (jdMode : JobDescriptionMode) (jdText : String)
    (jdFilePresent : Bool) : BatchOutcome :=
  if resumes.length = 0 then
    .inputError "Please upload or import at least one resume."
  else if jdMode = JobDescriptionMode.TEXT ∧ jsTrim jdText = "" then
    .inputError "Please enter the Job Description text."
  else if jdMode = JobDescriptionMode.FILE ∧ jdFilePresent = false then
    .inputError "Please upload a Job Description file."
  else
    if (screeningLoop screen resumes 0).results.length = 0 ∧
        (screeningLoop screen resumes 0).failed.length > 0 then
      .failure ("Failed to process all resumes. Issues:\n"
        ++ String.intercalate "\n" (screeningLoop screen resumes 0).failed)
    else if (screeningLoop screen resumes 0).results.length = 0 then
      .failure "No results generated."
    else
      .success (screeningLoop screen resumes 0).results (screeningLoop screen resumes 0).failed

/-- The duplicate test of `handleShortlist`:
`c.candidateName === candidate.candidateName && c.email === candidate.email`. -/
def shortlistKeyMatch (a b : ScreeningResult) : Bool :=
  decide (a.candidateName = b.candidateName) && decide (a.email = b.email)

/-- `handleShortlist` in App.tsx: if some shortlisted entry has the same
candidate name and email the shortlist is unchanged, otherwise the candidate
is appended at the end. -/
def handleShortlist (prev : List ScreeningResult) (candidate : ScreeningResult) :
    List ScreeningResult :=
  if prev.any (fun c => shortlistKeyMatch c candidate) then prev
  else prev ++ [candidate]

/-- `handleRemoveFromShortlist` in App.tsx: `prev.filter(c => c !== candidate)`
(removal of the selected entry, modelled with structural equality). -/
def handleRemoveFromShortlist (prev : List ScreeningResult)
    (candidate : ScreeningResult) : List ScreeningResult :=
  prev.filter fun c => decide ¬(c = candidate)

/-- One user action on the shortlist. -/
inductive ShortlistOp where
  | add (c : ScreeningResult)
  | remove (c : ScreeningResult)

/-- Apply one shortlist action to the current shortlist state. -/
def applyShortlistOp (l : List ScreeningResult) : ShortlistOp → List ScreeningResult
  | .add c => handleShortlist l c
  | .remove c => handleRemoveFromShortlist l c

/-- Run a sequence of shortlist actions from the initial empty shortlist
(`useState<ScreeningResult[]>([])`). -/
def runShortlistOps (ops : List ShortlistOp) : List ScreeningResult :=
  ops.foldl applyShortlistOp []

/-- No two entries share the `(candidateName, email)` key. -/
def ShortlistNoDupKey (l : List ScreeningResult) : Prop :=
  l.Pairwise fun a b => shortlistKeyMatch a b = false

/-- `.replace(/"/g, '""')` of the CSV export, at character level: every
double-quote character is doubled. -/
def doubleQuotesRun : List Char → List Char
  | [] => []
  | c :: cs => if c = '"' then '"' :: '"' :: doubleQuotesRun cs else c :: doubleQuotesRun cs

/-- One exported CSV field for a required string column of
`handleExportCSV`: a falsy (empty) value becomes `""`, otherwise the value
is wrapped in double quotes with embedded quotes doubled. -/
def csvField (v : String) : List Char :=
  if v = "" then ['"', '"']
  else '"' :: (doubleQuotesRun v.data ++ ['"'])

/-- One exported CSV field for an optional string column (`email`, `phone`):
absent values also export as `""`. -/
def csvFieldOpt : Option String → List Char
  | none => ['"', '"']
  | some v => csvField v

/-- `Array.prototype.join(sep)` at character-list level. -/
def joinSep (sep : Char) : List (List Char) → List Char
  | [] => []
  | [x] => x
  | x :: y :: xs => x ++ sep :: joinSep sep (y :: xs)

/-- One data row of the export: the four fields, in the fixed column order,
joined with commas. -/
def csvRow (r : ScreeningResult) : List Char :=
  joinSep ',' [csvField r.candidateName, csvField r.candidateExperience,
    csvFieldOpt r.email, csvFieldOpt r.phone]

/-- The header cells of `handleExportCSV` in TableView.tsx. -/
def csvHeaders : List (List Char) :=
  ["Candidate Name".data, "Total Experience".data, "Email".data, "Contact Number".data]

/-- The `csvContent` string of `handleExportCSV`: the header row followed by
one row per result, joined with newlines. -/
def csvContent (results : List ScreeningResult) : List Char :=
  joinSep '\n' (joinSep ',' csvHeaders :: results.map csvRow)

/-- `handleExportCSV` in TableView.tsx (the content written to the exported
blob; the DOM download plumbing is outside the model). -/
def handleExportCSV (results : List ScreeningResult) : String :=
  String.mk (csvContent results)

/-- The record of values a standard CSV reader recovers from one data row:
candidate name, total experience, email (empty when absent), contact number
(empty when absent). -/
def csvRowValues (r : ScreeningResult) : List (List Char) :=
  [r.candidateName.data, r.candidateExperience.data,
   (r.email.getD "").data, (r.phone.getD "").data]

/-- Standard (RFC 4180 style) parser, quoted-field body: consume characters
up to the closing quote, reading `""` as one literal quote; returns the field
value and the remaining input after the closing quote. -/
def parseQuotedBody : List Char → Option (List Char × List Char)
  | [] => none
  | ['"'] => some ([], [])
  | '"' :: '"' :: cs =>
    match parseQuotedBody cs with
    | none => none
    | some (v, rest) => some ('"' :: v, rest)
  | '"' :: c2 :: cs2 => some ([], c2 :: cs2)
  | c :: cs =>
    match parseQuotedBody cs with
    | none => none
    | some (v, rest) => some (c :: v, rest)

/-- Standard CSV parser, unquoted field: take characters up to the next
separator (comma or newline) or the end of input. -/
def takeUnquoted : List Char → List Char × List Char
  | [] => ([], [])
  | c :: cs =>
    if c = ',' ∨ c = '\n' then ([], c :: cs)
    else
      let p := takeUnquoted cs
      (c :: p.1, p.2)

/-- Standard CSV parser, one field: a field beginning with a quote is read
as a quoted field, anything else as an unquoted field. -/
def parseCsvField : List Char → Option (List Char × List Char)
  | [] => some ([], [])
  | c :: cs =>
    if c = '"' then parseQuotedBody cs
    else some (takeUnquoted (c :: cs))

/-- Standard CSV parser, the fields of one record (fuelled by the maximal
number of fields): fields separated by commas, the record ending at a
newline or at the end of input. -/
def parseCsvFieldsF : Nat → List Char → Option (List (List Char) × List Char)
  | 0, _ => none
  | fuel + 1, cs =>
    match parseCsvField cs with
    | none => none
    | some (v, rest) =>
      match rest with
      | [] => some ([v], [])
      | c :: r2 =>
        if c = ',' then
          match parseCsvFieldsF fuel r2 with
          | none => none
          | some (fs, rest2) => some (v :: fs, rest2)
        else some ([v], c :: r2)

/-- Standard CSV parser, one record. -/
def parseCsvRecord (cs : List Char) : Option (List (List Char) × List Char) :=
  parseCsvFieldsF (cs.length + 1) cs

/-- Standard CSV parser, a sequence of records separated by newlines
(fuelled by the maximal number of records). -/
def parseCsvRecordsF : Nat → List Char → Option (List (List (List Char)))
  | 0, _ => none
  | fuel + 1, cs =>
    match parseCsvRecord cs with
    | none => none
    | some (fs, rest) =>
      match rest with
      | [] => some [fs]
      | c :: r2 =>
        if c = '\n' then
          match parseCsvRecordsF fuel r2 with
          | none => none
          | some rs => some (fs :: rs)
        else none

/-- Standard CSV parser, a whole document. -/
def parseCsv (cs : List Char) : Option (List (List (List Char))) :=
  parseCsvRecordsF (cs.length + 1) cs

/-- A plain-text resume fixture (local upload, non-empty base64 content). -/
def textualResume : FileInput :=
  ⟨some "alice.txt", some "QWxpY2U=", "text/plain", some FileSource.localUpload⟩

/-- A PDF resume fixture. -/
def pdfResume : FileInput :=
  ⟨some "alice.pdf", some "cGRmYnl0ZXM=", "application/pdf", some FileSource.localUpload⟩

/-- An image resume fixture (media type outside the documented supported set). -/
def imageResume : FileInput :=
  ⟨some "photo.png", some "aW1hZ2U=", "image/png", some FileSource.localUpload⟩

/-- A DOCX resume fixture. -/
def docxResume : FileInput :=
  ⟨some "alice.docx", some "ZG9jeA==", docxMime, some FileSource.localUpload⟩

/-- A PDF job-description file fixture. -/
def pdfJdFile : FileInput :=
  ⟨some "jd.pdf", some "amRwZGY=", "application/pdf", some FileSource.localUpload⟩

/-- A well-formed `ScreeningResult` fixture. -/
def sampleResult : ScreeningResult :=
  ⟨"Alice", "Berlin", "5 years", "Developer", some "alice@example.com", some "555-1234",
   "resume text", 70, "summary", [⟨"React", 80, "solid", "built UIs"⟩],
   ["fast"], ["none"], "Strong Match", ["Frontend"], ["React"], ["Agile"]⟩

/-- An environment whose provider calls succeed and whose JSON decoding
yields the given result: both credentials present, extraction and base64
decoding yield non-empty text, both providers answer with a non-empty
response body. -/
def envWith (r : ScreeningResult) : Env :=
  ⟨some "key", some "key", fun _ => "extracted document text",
   fun _ => "decoded resume text", fun _ _ => .ok (some "payload"),
   fun _ _ _ => .ok (some "payload"), fun _ => .ok r, 0⟩

/-- Like `envWith sampleResult` but DOCX extraction yields the empty string
(the failure mode `extractTextFromDocx` maps every internal error to). -/
def envEmptyDocx : Env :=
  ⟨some "key", some "key", fun _ => "", fun _ => "decoded resume text",
   fun _ _ => .ok (some "payload"), fun _ _ _ => .ok (some "payload"),
   fun _ => .ok sampleResult, 0⟩

/-- Like `envWith sampleResult` but with no Gemini credential in the
environment. -/
def envNoGeminiKey : Env :=
  ⟨none, some "key", fun _ => "extracted document text",
   fun _ => "decoded resume text", fun _ _ => .ok (some "payload"),
   fun _ _ _ => .ok (some "payload"), fun _ => .ok sampleResult, 0⟩

/-- A `ScreeningResult` whose `recommendation` lies outside the closed
4-value enumeration. -/
def maybeResult : ScreeningResult :=
  ⟨"Bob", "Paris", "3 years", "Developer", some "bob@example.com", some "555-9876",
   "text", 55, "summary", [], [], [], "Maybe", [], [], []⟩

/-- A `ScreeningResult` whose scores lie outside `[0, 100]`. -/
def oversizedResult : ScreeningResult :=
  ⟨"Carl", "Rome", "2 years", "Developer", none, none, "text", 150, "summary",
   [⟨"React", -20, "reasoning", "evidence"⟩], [], [], "Strong Match", [], [], []⟩

/-- Batch fixture: first resume file. -/
def fileA : FileInput := ⟨some "a.txt", some "YQ==", "text/plain", some FileSource.localUpload⟩

/-- Batch fixture: second resume file. -/
def fileB : FileInput := ⟨some "b.txt", some "Yg==", "text/plain", some FileSource.localUpload⟩

/-- A screening function that succeeds on `a.txt` and fails on everything
else. -/
def partialScreen : FileInput → Except String ScreeningResult :=
  fun r => if r.fileName = some "a.txt" then .ok sampleResult else .error "boom"

/-- A screening function that fails on every item. -/
def failingScreen : FileInput → Except String ScreeningResult :=
  fun _ => .error "boom"

theorem screeningLoop_length (screen : FileInput → Except String ScreeningResult)
    (rs : List FileInput) (i : Nat) :
    (screeningLoop screen rs i).results.length + (screeningLoop screen rs i).failed.length
      = rs.length := by
  induction rs generalizing i with
  | nil => simp [screeningLoop]
  | cons r rest ih =>
    cases hs : screen r with
    | ok a =>
      have := ih (i + 1)
      simp only [screeningLoop, hs, List.length_cons]
      omega
    | error m =>
      have := ih (i + 1)
      simp only [screeningLoop, hs, List.length_cons]
      omega

/-- Claim C4: for a wrapped operation that fails on every attempt, the retry
controller invokes the operation exactly `1 + retries` times (3 with the
default `retries = 2`) and sleeps a doubling backoff before each retry: the
base delay before the first retry, twice that before the second, and in
general `delay * 2 ^ i` before retry `i`. -/
theorem c4_retry_attempt_bound {E A : Type} (op : Nat → Except E A)
    (h : ∀ n, ∃ e, op n = Except.error e) (retries delay k : Nat) :
    (retryOperation op retries delay k).attempts = 1 + retries ∧
    (retryOperation op retries delay k).delays
      = (List.range retries).map (fun i => delay * 2 ^ i) := by
  induction retries generalizing delay k with
  | zero =>
    obtain ⟨e, hop⟩ := h k
    simp [retryOperation, hop]
  | succ r ih =>
    obtain ⟨e, hop⟩ := h k
    obtain ⟨ha, hd⟩ := ih (delay * 2) (k + 1)
    constructor
    · simp only [retryOperation, hop]
      omega
    · simp only [retryOperation, hop]
      simp only [hd, List.range_succ_eq_map, List.map_cons, List.map_map]
      have hfun : ((fun i => delay * 2 ^ i) ∘ Nat.succ) = fun i => delay * 2 * 2 ^ i := by
        funext i
        simp [Function.comp, pow_succ]
        ring
      simp [hfun]

/-- Witness for C4 at a concrete always-failing operation with the default
parameters `retries = 2`, `delay = 1000`: exactly 3 attempts, backoff delays
1000 then 2000. -/
theorem c4_retry_attempt_bound_witness :
    (retryOperation (fun _ => (Except.error "boom" : Except String Unit)) 2 1000 0).attempts = 3 ∧
    (retryOperation (fun _ => (Except.error "boom" : Except String Unit)) 2 1000 0).delays
      = [1000, 2000] := by
  have h := c4_retry_attempt_bound (fun _ => (Except.error "boom" : Except String Unit))
    (fun _ => ⟨"boom", rfl⟩) 2 1000 0
  exact ⟨h.1, h.2.trans (by decide)⟩

/-- Claim C7: the retry controller treats every failure class identically
(the statement is parametric in the errors thrown, so a `MissingCredential`
failure is retried exactly like any other) and, after the budget is
exhausted, propagates the failure of the last attempt unchanged; concretely,
screening with the Gemini credential absent from the environment surfaces
exactly the thrown missing-key message after the full retry cycle. -/
theorem c7_retry_propagates_last_error {E A : Type} (e : Nat → E) (retries delay k : Nat) :
    (retryOperation (fun n => (Except.error (e n) : Except E A)) retries delay k).result
      = Except.error (e (k + retries)) ∧
    (retryOperation (fun n => (Except.error (e n) : Except E A)) retries delay k).attempts
      = 1 + retries ∧
    screenResume envNoGeminiKey textualResume "JD text" none "model" AiProvider.gemini
      = Except.error "Gemini API Key missing in environment variables." := by
  refine ⟨?_, ?_, rfl⟩
  · induction retries generalizing delay k with
    | zero => simp [retryOperation]
    | succ r ih =>
      simp only [retryOperation]
      have := ih (delay * 2) (k + 1)
      simp only [this]
      have hk : k + 1 + r = k + (r + 1) := by omega
      rw [hk]
  · exact (c4_retry_attempt_bound _ (fun n => ⟨e n, rfl⟩) retries delay k).1

theorem shortlist_step_preserves (l : List ScreeningResult) (op : ShortlistOp)
    (h : ShortlistNoDupKey l) : ShortlistNoDupKey (applyShortlistOp l op) := by
  cases op with
  | add c =>
    show ShortlistNoDupKey (handleShortlist l c)
    unfold handleShortlist
    by_cases hc : (l.any fun x => shortlistKeyMatch x c) = true
    · rw [if_pos hc]
      exact h
    · rw [if_neg hc]
      rw [ShortlistNoDupKey, List.pairwise_append]
      refine ⟨h, List.pairwise_singleton _ _, ?_⟩
      intro a ha b hb
      have hb' : b = c := by simpa using hb
      have hfalse : (l.any fun x => shortlistKeyMatch x c) = false :=
        Bool.eq_false_iff.mpr hc
      have ha' := List.any_eq_false.mp hfalse a ha
      rw [hb']
      simpa using ha'
  | remove c =>
    show ShortlistNoDupKey (handleRemoveFromShortlist l c)
    unfold handleRemoveFromShortlist
    exact h.sublist (List.filter_sublist l)

/-- Claim C10: starting from the empty shortlist, after any sequence of
shortlist add (`handleShortlist`) and remove (`handleRemoveFromShortlist`)
operations, no two shortlist entries share the `(candidateName, email)` key:
an add whose key is already present leaves the list unchanged, so the
no-duplicate invariant is preserved throughout. -/
theorem c10_shortlist_no_duplicate_key (ops : List ShortlistOp) :
    ShortlistNoDupKey (runShortlistOps ops) := by
  have step : ∀ (os : List ShortlistOp) (l : List ScreeningResult),
      ShortlistNoDupKey l → ShortlistNoDupKey (List.foldl applyShortlistOp l os) := by
    intro os
    induction os with
    | nil => intro l hl; exact hl
    | cons o os ih =>
      intro l hl
      exact ih _ (shortlist_step_preserves l o hl)
  exact step ops [] List.Pairwise.nil

/-- Claim C3: whenever a batch run completes without a batch-level failure
(the outcome is `success`), the length of the result list plus the length of
the failure manifest equals the number of input items — each item landed in
exactly one of the two sequences, and a per-item failure only appended to
the manifest while the loop continued. -/
theorem c3_batch_partition (screen : FileInput → Except String ScreeningResult)
    (resumes : List FileInput) (jdMode : JobDescriptionMode) (jdText : String)
    (jdFilePresent : Bool) (rs : List ScreeningResult) (fs : List String)
    (h : handleScreening screen resumes jdMode jdText jdFilePresent
      = BatchOutcome.success rs fs) :
    rs.length + fs.length = resumes.length := by
  unfold handleScreening at h
  split at h
  · cases h
  · split at h
    · cases h
    · split at h
      · cases h
      · split at h
        · cases h
        · split at h
          · cases h
          · cases h
            exact screeningLoop_length screen resumes 0

/-- Witness for C3: a concrete 2-item batch in which the first item succeeds
and the second fails yields one result plus one manifest entry, and
`1 + 1 = 2`. -/
theorem c3_batch_partition_witness :
    handleScreening partialScreen [fileA, fileB] JobDescriptionMode.TEXT "jd" false
      = BatchOutcome.success [sampleResult] ["b.txt (boom)"] ∧
    ([sampleResult].length + (["b.txt (boom)"] : List String).length
      = ([fileA, fileB] : List FileInput).length) :=
  ⟨rfl, c3_batch_partition partialScreen [fileA, fileB] JobDescriptionMode.TEXT "jd" false
    [sampleResult] ["b.txt (boom)"] rfl⟩

/-- Claim C6: past the pre-flight checks, a completed batch whose loop
produced no result and a non-empty manifest fails as a whole with the single
error that joins the manifest (`AllItemsFailed`); a batch with at least one
success instead returns the succeeded results together with the manifest. -/
theorem c6_all_failed_batch (screen : FileInput → Except String ScreeningResult)
    (resumes : List FileInput) (jdMode : JobDescriptionMode) (jdText : String)
    (jdFilePresent : Bool)
    (h1 : ¬resumes.length = 0)
    (h2 : ¬(jdMode = JobDescriptionMode.TEXT ∧ jsTrim jdText = ""))
    (h3 : ¬(jdMode = JobDescriptionMode.FILE ∧ jdFilePresent = false)) :
    ((screeningLoop screen resumes 0).results = [] →
      (screeningLoop screen resumes 0).failed ≠ [] →
      handleScreening screen resumes jdMode jdText jdFilePresent
        = BatchOutcome.failure ("Failed to process all resumes. Issues:\n"
            ++ String.intercalate "\n" (screeningLoop screen resumes 0).failed)) ∧
    ((screeningLoop screen resumes 0).results ≠ [] →
      handleScreening screen resumes jdMode jdText jdFilePresent
        = BatchOutcome.success (screeningLoop screen resumes 0).results
            (screeningLoop screen resumes 0).failed) := by
  constructor
  · intro he hf
    unfold handleScreening
    rw [if_neg h1, if_neg h2, if_neg h3, if_pos]
    constructor
    · simp [he]
    · simpa [List.length_pos] using hf
  · intro hr
    unfold handleScreening
    rw [if_neg h1, if_neg h2, if_neg h3, if_neg, if_neg]
    · simpa using hr
    · intro hand
      exact hr (List.length_eq_zero.mp hand.1)

/-- Witness for C6: a concrete batch in which both items fail yields the
single joined `AllItemsFailed` error, and a batch in which exactly one item
succeeds yields that result plus the one-entry manifest. -/
theorem c6_all_failed_batch_witness :
    handleScreening failingScreen [fileA, fileB] JobDescriptionMode.TEXT "jd" false
      = BatchOutcome.failure "Failed to process all resumes. Issues:\na.txt (boom)\nb.txt (boom)" ∧
    handleScreening partialScreen [fileB, fileA] JobDescriptionMode.TEXT "jd" false
      = BatchOutcome.success [sampleResult] ["b.txt (boom)"] := by
  have hall := c6_all_failed_batch failingScreen [fileA, fileB] JobDescriptionMode.TEXT "jd" false
    (by decide) (by decide) (by decide)
  have hpart := c6_all_failed_batch partialScreen [fileB, fileA] JobDescriptionMode.TEXT "jd" false
    (by decide) (by decide) (by decide)
  refine ⟨(hall.1 rfl (by decide)).trans ?_, (hpart.2 (by decide)).trans ?_⟩
  · rfl
  · rfl

/-- Counterexample to claim C1 as stated: with a provider response that
decodes to a result whose `recommendation` is "Maybe", `screenResume`
returns that result — containing the out-of-enumeration value — instead of
failing with a `MalformedResponse` error. -/
theorem c1_cex_maybe_recommendation_accepted :
    screenResume (envWith maybeResult) textualResume "JD text" none "model" AiProvider.gemini
      = Except.ok maybeResult ∧
    validRecommendation maybeResult.recommendation = false :=
  ⟨rfl, rfl⟩

/-- Claim C1 (amended): the response-parsing step of `screenResume` performs
no validation of `recommendation` — for either provider, any successfully
decoded response is returned as-is even when its `recommendation` lies
outside the closed 4-value enumeration; the enumeration is enforced only
through the request-side schema (Gemini) or prompt text (OpenAI). -/
theorem c1_recommendation_not_validated (r : ScreeningResult) (p : AiProvider)
    (_h : validRecommendation r.recommendation = false) :
    screenResume (envWith r) textualResume "JD text" none "model" p = Except.ok r := by
  cases p <;> rfl

/-- Witness for C1 (amended) at the concrete out-of-enumeration result. -/
theorem c1_recommendation_not_validated_witness :
    screenResume (envWith maybeResult) textualResume "JD text" none "model" AiProvider.openai
      = Except.ok maybeResult :=
  c1_recommendation_not_validated maybeResult AiProvider.openai rfl

/-- Counterexample to claim C2 as stated: a provider response whose
`overallMatchScore` is 150 and whose only `skillsAnalysis` score is -20 is
returned unchanged by `screenResume`, so the returned `ScreeningResult`
violates the `[0, 100]` range. -/
theorem c2_cex_out_of_range_scores_accepted :
    screenResume (envWith oversizedResult) textualResume "JD text" none "model" AiProvider.openai
      = Except.ok oversizedResult ∧
    (100 : Int) < oversizedResult.overallMatchScore ∧
    ∃ s ∈ oversizedResult.skillsAnalysis, s.score < 0 :=
  ⟨rfl, by decide, ⟨⟨"React", -20, "reasoning", "evidence"⟩, by decide⟩⟩

/-- Claim C2 (amended): `screenResume` neither validates nor clamps scores —
a decoded provider response is returned unchanged even when its
`overallMatchScore` lies outside `[0, 100]`; the range is requested from the
provider but only the offline demo path (`generateMockResult`) guarantees
it, with `overallMatchScore` in `[60, 100]` and every skills score in
`[0, 100]`. -/
theorem c2_scores_not_validated (r : ScreeningResult) (p : AiProvider)
    (_h : ¬(0 ≤ r.overallMatchScore ∧ r.overallMatchScore ≤ 100)) :
    screenResume (envWith r) textualResume "JD text" none "model" p = Except.ok r ∧
    (∀ (rand : Nat) (fileName : String), rand ≤ 39 →
      (0 ≤ (generateMockResult rand fileName).overallMatchScore ∧
        (generateMockResult rand fileName).overallMatchScore ≤ 100) ∧
      ∀ s ∈ (generateMockResult rand fileName).skillsAnalysis,
        0 ≤ s.score ∧ s.score ≤ 100) := by
  constructor
  · cases p <;> rfl
  · intro rand fileName hrand
    constructor
    · simp only [generateMockResult]
      omega
    · intro s hs
      simp only [generateMockResult, List.mem_cons, List.not_mem_nil, or_false] at hs
      rcases hs with h | h | h <;> rw [h] <;> exact ⟨by decide, by decide⟩

/-- Witness for C2 (amended) at the concrete out-of-range result and the
demo path at `rand = 0`. -/
theorem c2_scores_not_validated_witness :
    screenResume (envWith oversizedResult) textualResume "JD text" none "model" AiProvider.gemini
      = Except.ok oversizedResult ∧
    (0 ≤ (generateMockResult 0 "cv.pdf").overallMatchScore ∧
      (generateMockResult 0 "cv.pdf").overallMatchScore ≤ 100) ∧
    ∀ s ∈ (generateMockResult 0 "cv.pdf").skillsAnalysis, 0 ≤ s.score ∧ s.score ≤ 100 := by
  have h := c2_scores_not_validated oversizedResult AiProvider.gemini (by decide)
  exact ⟨h.1, (h.2 0 "cv.pdf" (by decide)).1, (h.2 0 "cv.pdf" (by decide)).2⟩

/-- Counterexample to claim C5 as stated: a screening request carrying a PDF
resume under the OpenAI provider fails outright with the PDF-unsupported
error instead of receiving a placeholder and continuing in degraded mode. -/
theorem c5_cex_pdf_resume_openai_fails :
    screenResume (envWith sampleResult) pdfResume "JD text" none "model" AiProvider.openai
      = Except.error "OpenAI mode currently supports DOCX and Text files only. Please use Gemini for PDF resumes." :=
  rfl

/-- Claim C5 (amended): for a PDF resume, Gemini receives the raw bytes as
an inline-data part; for a PDF job-description document, OpenAI receives an
explicit placeholder string noting the limitation and context preparation
continues in degraded mode; but a PDF resume under OpenAI fails with an
error directing the user to Gemini — degraded-mode continuation applies
only to the job-description document, not to the resume. -/
theorem c5_pdf_handling (env : Env) (resume : FileInput) (jdFile : Option FileInput)
    (jdContext jdText modelName : String) (f : FileInput)
    (hres : resume.mimeType = "application/pdf")
    (hf : f.mimeType = "application/pdf")
    (hb : isFalsyOpt f.base64 = false)
    (hkey : isFalsyOpt env.apiKeyOpenai = false) :
    (∃ ps, buildGeminiParts env resume jdFile jdContext = Except.ok ps ∧
      ContentPart.inlineData resume.mimeType resume.base64 ∈ ps) ∧
    buildJdContext env AiProvider.openai jdText (some f)
      = Except.ok ("Job Description Context:\n"
          ++ "(Attached JD is a PDF - Please copy text for better results)") ∧
    openaiAttempt env resume jdContext modelName
      = Except.error "OpenAI mode currently supports DOCX and Text files only. Please use Gemini for PDF resumes." := by
  have hnd : resume.mimeType ≠ docxMime := by
    rw [hres]; decide
  have hfnd : f.mimeType ≠ docxMime := by
    rw [hf]; decide
  refine ⟨?_, ?_, ?_⟩
  · refine ⟨[ContentPart.inlineData resume.mimeType resume.base64]
      ++ geminiJdParts jdFile ++ [ContentPart.text (getCommonPrompt jdContext)], ?_, ?_⟩
    · unfold buildGeminiParts
      rw [if_neg hnd]
    · simp
  · simp only [buildJdContext, hb, Bool.false_eq_true, if_false]
    rw [if_neg hfnd, if_neg (by decide : ¬(AiProvider.openai = AiProvider.gemini)), if_pos hf]
  · unfold openaiAttempt
    rw [hkey]
    simp only [Bool.false_eq_true, if_false]
    rw [if_pos hres]

/-- Witness for C5 (amended) at concrete PDF inputs. -/
theorem c5_pdf_handling_witness :
    (∃ ps, buildGeminiParts (envWith sampleResult) pdfResume none "ctx" = Except.ok ps ∧
      ContentPart.inlineData pdfResume.mimeType pdfResume.base64 ∈ ps) ∧
    buildJdContext (envWith sampleResult) AiProvider.openai "jd" (some pdfJdFile)
      = Except.ok ("Job Description Context:\n"
          ++ "(Attached JD is a PDF - Please copy text for better results)") ∧
    openaiAttempt (envWith sampleResult) pdfResume "ctx" "model"
      = Except.error "OpenAI mode currently supports DOCX and Text files only. Please use Gemini for PDF resumes." :=
  c5_pdf_handling (envWith sampleResult) pdfResume none "ctx" "jd" "model" pdfJdFile
    rfl rfl rfl rfl

/-- Counterexample to claim C9 as stated: an input declaring the unsupported
media type `image/png` is not rejected — `screenResume` completes
successfully (when the provider answers), so no `UnsupportedMediaType`
failure is raised for that item. -/
theorem c9_cex_image_not_rejected :
    screenResume (envWith sampleResult) imageResume "JD text" none "model" AiProvider.gemini
      = Except.ok sampleResult :=
  rfl

/-- Claim C9 (amended): the screening operation performs no media-type
gating and no `UnsupportedMediaType` error exists: an input with an
undeclared-support media type such as `image/png` is forwarded to the
provider (Gemini receives it as inline data, OpenAI base64-decodes it as
text) and succeeds whenever the provider answers; moreover context
preparation can throw even for a supported media type — a DOCX resume whose
local extraction yields no text fails with `Empty DOCX`. -/
theorem c9_no_media_type_gate (r : ScreeningResult) :
    screenResume (envWith r) imageResume "JD text" none "model" AiProvider.gemini
      = Except.ok r ∧
    screenResume (envWith r) imageResume "JD text" none "model" AiProvider.openai
      = Except.ok r ∧
    screenResume (envWith r) docxResume "JD text" none "model" AiProvider.gemini
      = Except.ok r ∧
    screenResume envEmptyDocx docxResume "JD text" none "model" AiProvider.gemini
      = Except.error "Empty DOCX" :=
  ⟨rfl, rfl, rfl, rfl⟩

/-- The remainders at which a CSV field may legitimately stop: end of input,
a comma, or a newline. -/
def sepStop (rest : List Char) : Prop :=
  rest = [] ∨ ∃ c r, rest = c :: r ∧ (c = ',' ∨ c = '\n')

theorem sepStop_head_ne_quote {rest : List Char} (h : sepStop rest) :
    rest.head? ≠ some '"' := by
  rcases h with h | ⟨c, r, hcr, hc⟩
  · subst h; simp
  · subst hcr
    rcases hc with h | h <;> subst h <;> simp

theorem parseQuotedBody_roundtrip (v rest : List Char) (h : rest.head? ≠ some '"') :
    parseQuotedBody (doubleQuotesRun v ++ '"' :: rest) = some (v, rest) := by
  induction v with
  | nil =>
    cases rest with
    | nil => rfl
    | cons c2 cs2 =>
      have hc2 : ¬(c2 = '"') := by simpa using h
      simp [doubleQuotesRun, parseQuotedBody, hc2]
  | cons c cs ih =>
    by_cases hc : c = '"'
    · subst hc
      simp only [doubleQuotesRun, if_pos rfl, List.cons_append]
      simp [parseQuotedBody, ih]
    · simp only [doubleQuotesRun, if_neg hc, List.cons_append]
      simp [parseQuotedBody, hc, ih]

theorem csvField_eq (v : String) :
    csvField v = '"' :: (doubleQuotesRun v.data ++ ['"']) := by
  by_cases hv : v = ""
  · subst hv; rfl
  · simp [csvField, hv]

theorem csvFieldOpt_eq (o : Option String) :
    csvFieldOpt o = csvField (o.getD "") := by
  cases o <;> rfl

theorem parseCsvField_quoted (v : String) (rest : List Char) (h : rest.head? ≠ some '"') :
    parseCsvField (csvField v ++ rest) = some (v.data, rest) := by
  rw [csvField_eq, List.cons_append, List.append_assoc, List.singleton_append]
  simp only [parseCsvField, if_pos rfl]
  exact parseQuotedBody_roundtrip v.data rest h

theorem takeUnquoted_roundtrip (w rest : List Char)
    (hw : ∀ c ∈ w, ¬(c = ',' ∨ c = '\n'))
    (hrest : sepStop rest) :
    takeUnquoted (w ++ rest) = (w, rest) := by
  induction w with
  | nil =>
    rcases hrest with h | ⟨c, r, hcr, hc⟩
    · subst h; rfl
    · subst hcr
      simp [takeUnquoted, hc]
  | cons c cs ih =>
    have hc := hw c (List.mem_cons_self c cs)
    simp [takeUnquoted, hc, ih (fun x hx => hw x (List.mem_cons_of_mem c hx))]

theorem parseCsvField_unquoted (w rest : List Char)
    (hw : ∀ c ∈ w, ¬(c = ',' ∨ c = '\n'))
    (hq : w.head? ≠ some '"')
    (hrest : sepStop rest) :
    parseCsvField (w ++ rest) = some (w, rest) := by
  cases w with
  | nil =>
    rcases hrest with h | ⟨c, r, hcr, hc⟩
    · subst h; rfl
    · subst hcr
      have hcq : ¬(c = '"') := by rcases hc with h | h <;> subst h <;> decide
      simp [parseCsvField, hcq, takeUnquoted, hc]
  | cons c cs =>
    have hcq : ¬(c = '"') := by simpa using hq
    simp only [List.cons_append, parseCsvField, if_neg hcq]
    have := takeUnquoted_roundtrip (c :: cs) rest hw hrest
    rw [List.cons_append] at this
    rw [this]

theorem length_le_joinSep (sep : Char) (ls : List (List Char)) :
    ls.length ≤ (joinSep sep ls).length + 1 := by
  induction ls with
  | nil => simp
  | cons x xs ih =>
    cases xs with
    | nil => simp [joinSep]
    | cons y ys =>
      simp only [joinSep, List.length_append, List.length_cons] at ih ⊢
      omega

theorem parseCsvFieldsF_roundtrip (ps : List (List Char × List Char)) (rest : List Char)
    (fuel : Nat) (hne : ps ≠ []) (hfuel : ps.length ≤ fuel)
    (hok : ∀ p ∈ ps, ∀ r, sepStop r → parseCsvField (p.1 ++ r) = some (p.2, r))
    (hrest : rest = [] ∨ ∃ r, rest = '\n' :: r) :
    parseCsvFieldsF fuel (joinSep ',' (ps.map Prod.fst) ++ rest)
      = some (ps.map Prod.snd, rest) := by
  induction ps generalizing fuel with
  | nil => exact absurd rfl hne
  | cons p ps ih =>
    cases fuel with
    | zero => simp at hfuel
    | succ fuel =>
      cases ps with
      | nil =>
        have hstop : sepStop rest := by
          rcases hrest with h | ⟨r, h⟩
          · exact Or.inl h
          · exact Or.inr ⟨'\n', r, h, Or.inr rfl⟩
        have hfield := hok p (List.mem_singleton_self p) rest hstop
        simp only [List.map_cons, List.map_nil, joinSep]
        simp only [parseCsvFieldsF, hfield]
        rcases hrest with h | ⟨r, h⟩ <;> subst h <;> simp
      | cons q qs =>
        have hfield := hok p (List.mem_cons_self p (q :: qs))
          (',' :: (joinSep ',' ((q :: qs).map Prod.fst) ++ rest))
          (Or.inr ⟨',', _, rfl, Or.inl rfl⟩)
        have hrec := ih fuel (by simp)
          (by simp only [List.length_cons] at hfuel ⊢; omega)
          (fun x hx => hok x (List.mem_cons_of_mem p hx))
        simp only [List.map_cons, joinSep, List.append_assoc, List.cons_append] at hfield ⊢
        simp only [parseCsvFieldsF, hfield]
        simp only [List.map_cons] at hrec
        simp [hrec]

theorem parseCsvRecord_roundtrip (ps : List (List Char × List Char)) (rest : List Char)
    (hne : ps ≠ [])
    (hok : ∀ p ∈ ps, ∀ r, sepStop r → parseCsvField (p.1 ++ r) = some (p.2, r))
    (hrest : rest = [] ∨ ∃ r, rest = '\n' :: r) :
    parseCsvRecord (joinSep ',' (ps.map Prod.fst) ++ rest) = some (ps.map Prod.snd, rest) := by
  apply parseCsvFieldsF_roundtrip ps rest _ hne ?_ hok hrest
  have h1 := length_le_joinSep ',' (ps.map Prod.fst)
  simp only [List.length_map] at h1
  simp only [List.length_append]
  omega

/-- The `(escaped field, recovered value)` pairs of one data row of the
export. -/
def csvRowPairs (r : ScreeningResult) : List (List Char × List Char) :=
  [(csvField r.candidateName, r.candidateName.data),
   (csvField r.candidateExperience, r.candidateExperience.data),
   (csvFieldOpt r.email, (r.email.getD "").data),
   (csvFieldOpt r.phone, (r.phone.getD "").data)]

/-- The `(cell, recovered value)` pairs of the header row. -/
def csvHeaderPairs : List (List Char × List Char) :=
  csvHeaders.map fun h => (h, h)

theorem csvRowPairs_fieldOk (r : ScreeningResult) :
    ∀ p ∈ csvRowPairs r, ∀ st, sepStop st → parseCsvField (p.1 ++ st) = some (p.2, st) := by
  have key : ∀ (v : String) (st : List Char), sepStop st →
      parseCsvField (csvField v ++ st) = some (v.data, st) :=
    fun v st hst => parseCsvField_quoted v st (sepStop_head_ne_quote hst)
  intro p hp st hst
  simp only [csvRowPairs, List.mem_cons, List.not_mem_nil, or_false] at hp
  rcases hp with h | h | h | h <;> subst h
  · exact key _ st hst
  · exact key _ st hst
  · rw [csvFieldOpt_eq]; exact key _ st hst
  · rw [csvFieldOpt_eq]; exact key _ st hst

theorem csvHeaderPairs_fieldOk :
    ∀ p ∈ csvHeaderPairs, ∀ st, sepStop st → parseCsvField (p.1 ++ st) = some (p.2, st) := by
  intro p hp st hst
  simp only [csvHeaderPairs, csvHeaders, List.map_cons, List.map_nil, List.mem_cons,
    List.not_mem_nil, or_false] at hp
  rcases hp with h | h | h | h <;> subst h <;>
    exact parseCsvField_unquoted _ st (by decide) (by decide) hst

theorem parseCsvRecordsF_roundtrip (rs : List (List Char × List (List Char))) (fuel : Nat)
    (hne : rs ≠ []) (hfuel : rs.length ≤ fuel)
    (hok : ∀ p ∈ rs, ∀ st, (st = [] ∨ ∃ r, st = '\n' :: r) →
      parseCsvRecord (p.1 ++ st) = some (p.2, st)) :
    parseCsvRecordsF fuel (joinSep '\n' (rs.map Prod.fst)) = some (rs.map Prod.snd) := by
  induction rs generalizing fuel with
  | nil => exact absurd rfl hne
  | cons p ps ih =>
    cases fuel with
    | zero => simp at hfuel
    | succ fuel =>
      cases ps with
      | nil =>
        have hrec := hok p (List.mem_singleton_self p) [] (Or.inl rfl)
        rw [List.append_nil] at hrec
        simp only [List.map_cons, List.map_nil, joinSep]
        simp only [parseCsvRecordsF, hrec]
      | cons q qs =>
        have hrec := hok p (List.mem_cons_self p (q :: qs))
          ('\n' :: joinSep '\n' ((q :: qs).map Prod.fst))
          (Or.inr ⟨joinSep '\n' ((q :: qs).map Prod.fst), rfl⟩)
        have htail := ih fuel (by simp)
          (by simp only [List.length_cons] at hfuel ⊢; omega)
          (fun x hx => hok x (List.mem_cons_of_mem p hx))
        simp only [List.map_cons, joinSep] at hrec ⊢
        simp only [parseCsvRecordsF, hrec]
        simp only [List.map_cons] at htail
        simp [htail]

/-- The `(record text, recovered values)` pairs of the whole export: the
header row and one row per screening result. -/
def csvDocPairs (results : List ScreeningResult) : List (List Char × List (List Char)) :=
  (joinSep ',' csvHeaders, csvHeaders) :: results.map fun r => (csvRow r, csvRowValues r)

theorem csvRow_joinSep (r : ScreeningResult) :
    csvRow r = joinSep ',' ((csvRowPairs r).map Prod.fst) := rfl

theorem csvRowValues_map (r : ScreeningResult) :
    csvRowValues r = (csvRowPairs r).map Prod.snd := rfl

theorem csvDocPairs_recordOk (results : List ScreeningResult) :
    ∀ p ∈ csvDocPairs results, ∀ st, (st = [] ∨ ∃ r, st = '\n' :: r) →
      parseCsvRecord (p.1 ++ st) = some (p.2, st) := by
  intro p hp st hst
  simp only [csvDocPairs, List.mem_cons, List.mem_map] at hp
  rcases hp with h | ⟨r, _hr, h⟩
  · subst h
    have hh1 : csvHeaderPairs.map Prod.fst = csvHeaders := rfl
    have hh2 : csvHeaderPairs.map Prod.snd = csvHeaders := rfl
    have := parseCsvRecord_roundtrip csvHeaderPairs st (by decide)
      csvHeaderPairs_fieldOk hst
    rw [hh1, hh2] at this
    exact this
  · subst h
    have := parseCsvRecord_roundtrip (csvRowPairs r) st (by simp [csvRowPairs])
      (csvRowPairs_fieldOk r) hst
    rw [csvRow_joinSep, csvRowValues_map]
    exact this

/-- Claim C8: the CSV export produces, for every result list, a document
that a standard CSV parser reads back as the header row followed by exactly
one record per result, in list order, with the fixed column order candidate
name, total experience, email, contact number — every field is
double-quote-wrapped with embedded quotes doubled, so the original field
values (including any embedded commas, quotes or newlines) are recovered
exactly. -/
theorem c8_csv_export_roundtrip (results : List ScreeningResult) :
    parseCsv (handleExportCSV results).data
      = some (csvHeaders :: results.map csvRowValues) := by
  show parseCsv (csvContent results) = _
  unfold parseCsv
  have hmap : (csvDocPairs results).map Prod.fst
      = joinSep ',' csvHeaders :: results.map csvRow := by
    simp [csvDocPairs, List.map_map, Function.comp]
  have hmap2 : (csvDocPairs results).map Prod.snd
      = csvHeaders :: results.map csvRowValues := by
    simp [csvDocPairs, List.map_map, Function.comp]
  have hlen : (csvDocPairs results).length ≤ (csvContent results).length + 1 := by
    have h1 := length_le_joinSep '\n' ((csvDocPairs results).map Prod.fst)
    rw [hmap] at h1
    have h2 : (csvDocPairs results).length
        = (joinSep ',' csvHeaders :: results.map csvRow).length := by
      simp [csvDocPairs]
    rw [h2]
    exact h1
  have := parseCsvRecordsF_roundtrip (csvDocPairs results)
    ((csvContent results).length + 1) (by simp [csvDocPairs]) hlen
    (csvDocPairs_recordOk results)
  rw [hmap, hmap2] at this
  exact this
